import Mathlib

/-!
# Verification of the manifest-sync ETL core

A shallow embedding, in Lean 4, of the core logic of
`sync_master_manifest_to_db.py`: the order-metadata loader (`load_orders`),
the spreadsheet row extractor and field normalizer (`parse_manifest_xlsx`),
the filename → order-id derivation, and the per-record upsert/retry loop of
`main`.

Modelling conventions:
* Spreadsheet cells are `Option String` — the textual snapshot of the cell
  (`none` for an empty cell).  Numeric cells appear as their Python `str()`
  rendering (e.g. `"123456.0"`), which is exactly what the parser's string
  operations see after `str(...)`.
* Python string operations (`strip`, `lower`, `split`, `replace`,
  `endswith`, `in`, `re.sub(r'\D', ...)`) are re-implemented on `List Char`
  by structural recursion, so that every definition evaluates by `decide`.
  `strip` handles the ASCII whitespace characters; `lower` is ASCII
  (the data of interest is ASCII).
* Python `float` values are modelled as exact rationals `ℚ`; `float(...)`
  applied to a string is modelled by `parseFloat?`, a parser for the
  decimal literals (optional sign, integer part, optional fraction) that
  arise in the data.  `int(...)` truncation toward zero is `Int.tdiv`.
* Python dicts built by iterated assignment are modelled as association
  lists in insertion order, looked up from the right (last assignment wins).
-/

/-! ## Python string primitives, on `List Char` -/

/-- The characters stripped by Python `str.strip()` (ASCII whitespace). -/
def isPySpace (c : Char) : Bool :=
  c == ' ' || c == '\t' || c == '\n' || c == '\r' || c == '\x0b' || c == '\x0c'

/-- Python `str.strip()` on a character list. -/
def stripL (cs : List Char) : List Char :=
  ((cs.dropWhile isPySpace).reverse.dropWhile isPySpace).reverse

/-- Python `str.strip()`. -/
def pyStrip (s : String) : String := ⟨stripL s.data⟩

/-- Python `str.lower()` (ASCII). -/
def pyLower (s : String) : String := ⟨s.data.map Char.toLower⟩

/-- Python `sub in s` (substring containment) on character lists. -/
def subL (pat : List Char) : List Char → Bool
  | [] => pat.isEmpty
  | c :: rest => pat.isPrefixOf (c :: rest) || subL pat rest

/-- Python `pat in s` for strings. -/
def pyContains (s pat : String) : Bool := subL pat.data s.data

/-- Python `s.endswith(suffix)`. -/
def pyEndsWith (s suffix : String) : Bool := suffix.data.isSuffixOf s.data

/-- Python list membership `x in l` for strings. -/
def strMem (s : String) (l : List String) : Bool := l.any (fun t => s == t)

/-- Python `s.split(sep)` for a non-empty separator, on character lists,
with explicit fuel (the fuel is always instantiated with the length of the
scanned list, which suffices since every step consumes at least one
character). -/
def splitAuxL (sep : List Char) : Nat → List Char → List Char → List (List Char)
  | 0, s, acc => [acc.reverse ++ s]
  | _ + 1, [], acc => [acc.reverse]
  | fuel + 1, c :: rest, acc =>
    if sep ≠ [] && sep.isPrefixOf (c :: rest) then
      acc.reverse :: splitAuxL sep fuel ((c :: rest).drop sep.length) []
    else
      splitAuxL sep fuel rest (c :: acc)

/-- Python `s.split(sep)` (non-empty separator). -/
def pySplit (s sep : String) : List String :=
  (splitAuxL sep.data s.data.length s.data []).map (fun cs => ⟨cs⟩)

/-- Python `s.replace(old, new)` on character lists, all occurrences,
scanning left to right, with explicit fuel (always instantiated with the
length of the scanned list). -/
def replaceAuxL (pat rep : List Char) : Nat → List Char → List Char
  | 0, s => s
  | _ + 1, [] => []
  | fuel + 1, c :: rest =>
    if pat ≠ [] && pat.isPrefixOf (c :: rest) then
      rep ++ replaceAuxL pat rep fuel ((c :: rest).drop pat.length)
    else
      c :: replaceAuxL pat rep fuel rest

/-- Python `s.replace(old, new)` (non-empty pattern). -/
def pyReplace (s pat rep : String) : String :=
  ⟨replaceAuxL pat.data rep.data s.data.length s.data⟩

/-- Python `float(s)` on a character list: optional sign, then digits with
an optional fractional part.  Returns `none` where Python raises
`ValueError` (exotic accepted forms — exponents, `inf`, `nan`, `_`
separators — do not occur in the data and are out of scope). -/
def digitsVal (ds : List Char) : ℕ :=
  ds.foldl (fun a c => a * 10 + (c.toNat - 48)) 0

def parseFloatCore (cs : List Char) : Option ℚ :=
  let signed : ℚ × List Char :=
    match cs with
    | '-' :: r => (-1, r)
    | '+' :: r => (1, r)
    | _ => (1, cs)
  let sign := signed.1
  let body := signed.2
  let ip := body.takeWhile Char.isDigit
  let rest := body.dropWhile Char.isDigit
  match rest with
  | [] => if ip.isEmpty then none else some (sign * digitsVal ip)
  | '.' :: r2 =>
    let fp := r2.takeWhile Char.isDigit
    let rest2 := r2.dropWhile Char.isDigit
    if rest2.isEmpty && !(ip.isEmpty && fp.isEmpty) then
      some (sign * ((digitsVal ip : ℚ) + (digitsVal fp : ℚ) / (10 ^ fp.length)))
    else none
  | _ => none

/-- Python `float(s)` (strips surrounding whitespace, then parses). -/
def parseFloat? (s : String) : Option ℚ := parseFloatCore (stripL s.data)

/-- Python `int(q)` for a float value: truncation toward zero. -/
def pyTrunc (q : ℚ) : Int := Int.tdiv q.num q.den

/-! ## Data model -/

/-- A spreadsheet cell: `none` for an empty cell, otherwise its text. -/
abbrev Cell := Option String

/-- One spreadsheet row, as yielded by `ws.iter_rows(values_only=True)`. -/
abbrev SheetRow := List Cell

/-- A workbook: the rows of each sheet, in sheet order. -/
structure Workbook where
  sheets : List (List SheetRow)

/-- Per-order aggregate metadata (the `order_meta` dict built by
`load_orders`; the fields the parser reads). -/
structure OrderMeta where
  date : String
  total_cost : ℚ
  total_msrp : ℚ
  pallet_brands : List (String × String)
deriving DecidableEq

/-- One normalized output row (the dict appended to `rows` in
`parse_manifest_xlsx`). -/
structure ManifestRecord where
  order_id : String
  listing_id : String
  listing_title : String
  category : String
  product_name : String
  upc : String
  asin : String
  quantity : Int
  unit_retail : ℚ
  total_retail : ℚ
  order_date : String
  line_item_brands : String
  allocated_cogs_per_unit : ℚ
deriving DecidableEq

/-! ## Order metadata loader (`load_orders`) -/

/-- One entry of an order's `items` list in `orders.json`. -/
structure OrderItem where
  price : ℚ
  msrp : ℚ
  item_count : Int
  title : String
  pallet_ids : List String

/-- `parts = title.split(" - "); brands = parts[1] if len(parts) >= 3 else ""`. -/
def brandsOfTitle (title : String) : String :=
  let parts := pySplit title " - "
  if 3 ≤ parts.length then parts.getD 1 "" else ""

/-- The `pallet_brands` dict: for each item, each of its pallet ids is
assigned the item's brand string; iterated dict assignment is modelled as
an association list in insertion order, looked up from the right. -/
def buildPalletBrands (items : List OrderItem) : List (String × String) :=
  items.foldl (fun m item =>
    m ++ item.pallet_ids.map (fun pid => (pid, brandsOfTitle item.title))) []

/-- Python `dict.__getitem__` semantics on the insertion-order association
list: the last assignment to a key wins. -/
def dictLookup (m : List (String × String)) (k : String) : Option String :=
  (m.reverse.find? (fun p => p.1 == k)).map (fun p => p.2)

/-- Python `dict.get(k, d)`. -/
def dictGetD (m : List (String × String)) (k d : String) : String :=
  (dictLookup m k).getD d

/-- The `orders_map[oid]` aggregate built by `load_orders` for one order. -/
def mkOrderMeta (date : String) (items : List OrderItem) : OrderMeta :=
  { date := date
    total_cost := (items.map (fun it => it.price)).sum
    total_msrp := (items.map (fun it => it.msrp)).sum
    pallet_brands := buildPalletBrands items }

/-! ## Spreadsheet row extractor -/

def EXPECTED_HEADERS : List String :=
  ["listing id", "listing title", "category", "product name",
   "upc", "asin", "quantity", "orig. retail", "total orig. retail", "stock image"]

/-- `row and any(str(cell).strip().lower() in EXPECTED_HEADERS for cell in row if cell)`:
the header-row test.  Falsy cells (`none`, `""`) are skipped by the
`if cell` filter. -/
def isHeaderRow (row : SheetRow) : Bool :=
  row.any (fun c =>
    match c with
    | none => false
    | some s => (s != "") && strMem (pyLower (pyStrip s)) EXPECTED_HEADERS)

/-- Index of the first row passing `isHeaderRow` (the `for i, row ...
break` scan). -/
def findHeaderIdx : List SheetRow → Option Nat
  | [] => none
  | r :: rest =>
    if isHeaderRow r then some 0 else (findHeaderIdx rest).map (fun i => i + 1)

/-- `str(c).strip().lower() if c else ""`: one cell of the captured header
row. -/
def normCell : Cell → String
  | none => ""
  | some s => if s == "" then "" else pyLower (pyStrip s)

/-- The `if`/`elif` chain classifying one header cell into a canonical
field key (the equality test for `unit_retail` keeps `"total orig. retail"`
out of that bucket, which then falls through to the `"total orig"`
substring test). -/
def classifyHeader (h : String) : Option String :=
  if pyContains h "listing id" then some "listing_id"
  else if pyContains h "listing title" then some "listing_title"
  else if pyContains h "category" then some "category"
  else if pyContains h "product name" then some "product_name"
  else if h == "upc" then some "upc"
  else if h == "asin" then some "asin"
  else if h == "quantity" then some "quantity"
  else if h == "orig. retail" then some "unit_retail"
  else if pyContains h "total orig" then some "total_retail"
  else none

/-- The `col_map` dict: each classified header cell assigns its column
index to its field key; a later column overwrites an earlier duplicate. -/
def buildColMap (headers : List String) : List (String × Nat) :=
  headers.enum.filterMap (fun p => (classifyHeader p.2).map (fun k => (k, p.1)))

/-- Lookup in `col_map` (last assignment wins, as for a Python dict). -/
def lookupLast (m : List (String × Nat)) (k : String) : Option Nat :=
  (m.reverse.find? (fun p => p.1 == k)).map (fun p => p.2)

/-- Result of `get_val`: either the present, non-`None` cell text, or the
caller-supplied default (`missing`). -/
inductive RawVal where
  | missing
  | val (s : String)
deriving DecidableEq

/-- `get_val(key, default)`: the default is returned when the key is
unmapped, the column index falls past the row's end, or the cell is
`None`. -/
def get_val (colMap : List (String × Nat)) (row : SheetRow) (key : String) : RawVal :=
  match lookupLast colMap key with
  | none => .missing
  | some idx =>
    match row.get? idx with
    | none => .missing
    | some none => .missing
    | some (some s) => .val s

/-- `get_val(key, "")` coerced with `str(...)`. -/
def getStr (colMap : List (String × Nat)) (row : SheetRow) (key : String) : String :=
  match get_val colMap row key with
  | .missing => ""
  | .val s => s

/-! ## Field normalizer -/

/-- `if upc.endswith(".0"): upc = upc[:-2]`, applied to an already-stripped
string. -/
def dropDotZeroL (t : List Char) : List Char :=
  if ['.', '0'].isSuffixOf t then t.take (t.length - 2) else t

/-- The UPC cleaning pipeline applied to the raw cell text: strip, drop a
trailing `".0"`, remove all non-digit characters (`re.sub(r'\D', '', upc)`),
and keep the digit remainder when non-empty (the code's two identical
branches for 12/13-digit and other non-empty remainders), otherwise keep
the stripped, `".0"`-less string. -/
def cleanUpcL (cs : List Char) : List Char :=
  let t := stripL cs
  let t2 := dropDotZeroL t
  let d := t2.filter Char.isDigit
  if d.isEmpty then t2 else d

def clean_upc (s : String) : String := ⟨cleanUpcL s.data⟩

/-- The stripped, trailing-`".0"`-less intermediate of the UPC pipeline. -/
def dotZeroStripped (s : String) : String := ⟨dropDotZeroL (stripL s.data)⟩

/-- The raw UPC cell text handed to the cleaning pipeline.  The code's
`str(upc_raw).strip() if upc_raw else ""` guard is absorbed here: for a
falsy `upc_raw` (default `""`) the guard yields `""`, and
`clean_upc "" = ""` as well, so applying `clean_upc` to the raw text is
exact. -/
def upcRawOf (colMap : List (String × Nat)) (row : SheetRow) : String :=
  match get_val colMap row "upc" with
  | .missing => ""
  | .val s => s

/-- `str(get_val("asin", "")).strip() if get_val("asin") else ""`. -/
def asinOf (colMap : List (String × Nat)) (row : SheetRow) : String :=
  match get_val colMap row "asin" with
  | .missing => ""
  | .val s => if s == "" then "" else pyStrip s

/-- `int(float(get_val("quantity", 1)))` with `1` on `ValueError`/
`TypeError`; the absent-cell default `1` never fails to parse. -/
def quantityOf (colMap : List (String × Nat)) (row : SheetRow) : Int :=
  match get_val colMap row "quantity" with
  | .missing => 1
  | .val s =>
    match parseFloat? s with
    | some q => pyTrunc q
    | none => 1

/-- `float(get_val("unit_retail", 0))` with `0.0` on failure. -/
def unitRetailOf (colMap : List (String × Nat)) (row : SheetRow) : ℚ :=
  match get_val colMap row "unit_retail" with
  | .missing => 0
  | .val s =>
    match parseFloat? s with
    | some q => q
    | none => 0

/-- `float(get_val("total_retail", 0))` with `unit_retail * quantity` on
failure, then the present-but-zero override
`if total_retail == 0 and unit_retail > 0`. -/
def totalRetailOf (colMap : List (String × Nat)) (row : SheetRow) : ℚ :=
  let u := unitRetailOf colMap row
  let q := quantityOf colMap row
  let t : ℚ :=
    match get_val colMap row "total_retail" with
    | .missing => 0
    | .val s =>
      match parseFloat? s with
      | some x => x
      | none => u * q
  if t = 0 ∧ u > 0 then u * q else t

/-- `cogs_ratio = total_cost / total_msrp if total_msrp > 0 else 0`. -/
def cogsRatio (meta : OrderMeta) : ℚ :=
  if meta.total_msrp > 0 then meta.total_cost / meta.total_msrp else 0

/-- `all(c is None or str(c).strip() == "" for c in row)`. -/
def rowIsBlank (row : SheetRow) : Bool :=
  row.all (fun c =>
    match c with
    | none => true
    | some s => pyStrip s == "")

/-- The body of the data-row loop of `parse_manifest_xlsx`: skip blank
rows and header-echo rows, otherwise emit one normalized record. -/
def processRow (order_id : String) (meta : OrderMeta) (ratio : ℚ)
    (colMap : List (String × Nat)) (row : SheetRow) : Option ManifestRecord :=
  if row.isEmpty || rowIsBlank row then none
  else
    let listing_id := pyStrip (getStr colMap row "listing_id")
    let product_name := pyStrip (getStr colMap row "product_name")
    if product_name == "" || pyLower product_name == "product name" then none
    else some {
      order_id := order_id
      listing_id := listing_id
      listing_title := pyStrip (getStr colMap row "listing_title")
      category := pyStrip (getStr colMap row "category")
      product_name := product_name
      upc := clean_upc (upcRawOf colMap row)
      asin := asinOf colMap row
      quantity := quantityOf colMap row
      unit_retail := unitRetailOf colMap row
      total_retail := totalRetailOf colMap row
      order_date := meta.date
      line_item_brands := dictGetD meta.pallet_brands listing_id ""
      allocated_cogs_per_unit := unitRetailOf colMap row * ratio }

/-- One sheet of `parse_manifest_xlsx`: find the header row, build the
column map from its normalized cells, and process every row strictly below
it; a sheet with no header row yields no records. -/
def parseSheet (order_id : String) (meta : OrderMeta) (ratio : ℚ)
    (rows : List SheetRow) : List ManifestRecord :=
  match findHeaderIdx rows with
  | none => []
  | some i =>
    let colMap := buildColMap ((rows.getD i []).map normCell)
    (rows.drop (i + 1)).filterMap (processRow order_id meta ratio colMap)

/-- `parse_manifest_xlsx`: the COGS ratio is computed once per file and the
per-sheet record lists are concatenated in sheet order. -/
def parse_manifest_xlsx (wb : Workbook) (order_id : String) (meta : OrderMeta) :
    List ManifestRecord :=
  let ratio := cogsRatio meta
  wb.sheets.foldl (fun acc rows => acc ++ parseSheet order_id meta ratio rows) []

/-! ## Sync orchestrator (`main`) -/

/-- `order_id = filename.replace("order_manifest_", "").replace(".xlsx", "")`. -/
def extract_order_id (filename : String) : String :=
  pyReplace (pyReplace filename "order_manifest_" "") ".xlsx" ""

/-- The sink's behaviour on one record: whether the first `cur.execute`
raises, and whether the single retry raises.  Outcomes are free inputs, so
every realizable psycopg2 behaviour (including a poisoned transaction
failing the next statement) is an instance. -/
structure SinkOutcome where
  fail1 : Bool
  fail2 : Bool
deriving DecidableEq

/-- State of the upsert loop.  `pending` holds the record indices executed
since the last `conn.rollback()` (the open transaction); `committed` the
indices made durable by `conn.commit()`; `attempts` the number of
`cur.execute` calls made for each record, in record order. -/
structure RunState where
  inserted : Nat
  errors : Nat
  pending : List Nat
  committed : List Nat
  attempts : List Nat
deriving DecidableEq

/-- One iteration of the upsert loop for record `i`: on a first-attempt
error, `errors += 1` and `conn.rollback()` discards the whole open
transaction, then the same record is retried exactly once (`errors -= 1`
and `inserted += 1` if the retry succeeds; a bare `pass` if it fails). -/
def upsertStep (st : RunState) (i : Nat) (o : SinkOutcome) : RunState :=
  if o.fail1 then
    if o.fail2 then
      { st with errors := st.errors + 1, pending := [],
                attempts := st.attempts ++ [2] }
    else
      { st with inserted := st.inserted + 1, pending := [i],
                attempts := st.attempts ++ [2] }
  else
    { st with inserted := st.inserted + 1, pending := st.pending ++ [i],
              attempts := st.attempts ++ [1] }

/-- The upsert loop over all records followed by the final `conn.commit()`,
which makes the still-open transaction durable. -/
def runUpserts (outcomes : List SinkOutcome) : RunState :=
  let final := outcomes.enum.foldl (fun st p => upsertStep st p.1 p.2)
    { inserted := 0, errors := 0, pending := [], committed := [], attempts := [] }
  { final with committed := final.committed ++ final.pending, pending := [] }

/-! ## Claim-side definitions and concrete fixtures -/

/-- Claim-side reading of the header test: the row has at least one
non-null cell whose trimmed, lowercased text is exactly one of the ten
canonical header names. -/
def headerVocabCell (row : SheetRow) : Prop :=
  ∃ c ∈ row, ∃ s, c = some s ∧ pyLower (pyStrip s) ∈ EXPECTED_HEADERS

/-- C3 witness: on a sheet whose second row is the header, the extractor
picks index 1, the row above is not header-like, and the records are drawn
from the rows strictly below. -/
def rows3 : List SheetRow :=
  [[some " junk "], [none, some "  Product Name "], [some "x", some "Widget"]]

/-- C6 witness: the documented example title, attached to both pallet ids
of its item. -/
def itemV : OrderItem :=
  { price := 100, msrp := 200, item_count := 2,
    title := "Vacuums & Floorcare - iRobot, BISSELL, Shark - Orig. Retail $28,292",
    pallet_ids := ["P1", "P2"] }

/-- The claim's record-scoped reading of the failure path: the rollback
undoes only the failing record's effect (nothing, since its `execute`
raised), leaving every other record's pending effect in place; the retry
then proceeds as in the code. -/
def upsertStepRecordScoped (st : RunState) (i : Nat) (o : SinkOutcome) : RunState :=
  if o.fail1 then
    if o.fail2 then
      { st with errors := st.errors + 1, attempts := st.attempts ++ [2] }
    else
      { st with inserted := st.inserted + 1, pending := st.pending ++ [i],
                attempts := st.attempts ++ [2] }
  else
    { st with inserted := st.inserted + 1, pending := st.pending ++ [i],
              attempts := st.attempts ++ [1] }

def runUpsertsRecordScoped (outcomes : List SinkOutcome) : RunState :=
  let final := outcomes.enum.foldl (fun st p => upsertStepRecordScoped st p.1 p.2)
    { inserted := 0, errors := 0, pending := [], committed := [], attempts := [] }
  { final with committed := final.committed ++ final.pending, pending := [] }

def hdrW : SheetRow := [some "Product Name", some "Quantity", some "Orig. Retail", some "UPC"]

def rowW : SheetRow := [some "Widget", some "2", some "5", some "12345.0"]

def rowX : SheetRow := [some "Gadget", some "2", some "5", some "no-upc"]

def cmW : List (String × Nat) := buildColMap (hdrW.map normCell)

def metaW : OrderMeta := ⟨"2024-01-01", 30, 60, [("L1", "BrandA")]⟩

def meta0 : OrderMeta := ⟨"2024-02-02", 0, 0, []⟩

def wbW : Workbook := ⟨[[hdrW, rowW, rowX]]⟩

def wb0 : Workbook := ⟨[[hdrW, rowW]]⟩

def recW : ManifestRecord :=
  { order_id := "o1", listing_id := "", listing_title := "", category := "",
    product_name := "Widget", upc := "12345", asin := "", quantity := 2,
    unit_retail := 5, total_retail := 10, order_date := "2024-01-01",
    line_item_brands := "", allocated_cogs_per_unit := 5/2 }

def recX : ManifestRecord :=
  { order_id := "o1", listing_id := "", listing_title := "", category := "",
    product_name := "Gadget", upc := "no-upc", asin := "", quantity := 2,
    unit_retail := 5, total_retail := 10, order_date := "2024-01-01",
    line_item_brands := "", allocated_cogs_per_unit := 5/2 }

def recW0 : ManifestRecord :=
  { order_id := "o0", listing_id := "", listing_title := "", category := "",
    product_name := "Widget", upc := "12345", asin := "", quantity := 2,
    unit_retail := 5, total_retail := 10, order_date := "2024-02-02",
    line_item_brands := "", allocated_cogs_per_unit := 0 }

def hdr2 : SheetRow :=
  [some "Product Name", some "Quantity", some "Orig. Retail", some "Total Orig. Retail"]

def cm2 : List (String × Nat) := buildColMap (hdr2.map normCell)

def rowA : SheetRow := [some "ItemA", some "3", some "10"]

def rowB : SheetRow := [some "ItemB", some "2", some "5", some "0"]

def rowC : SheetRow := [some "ItemC", some "3", some "-5"]

def recA : ManifestRecord :=
  { order_id := "o2", listing_id := "", listing_title := "", category := "",
    product_name := "ItemA", upc := "", asin := "", quantity := 3,
    unit_retail := 10, total_retail := 30, order_date := "2024-01-01",
    line_item_brands := "", allocated_cogs_per_unit := 5 }

def recB : ManifestRecord :=
  { order_id := "o2", listing_id := "", listing_title := "", category := "",
    product_name := "ItemB", upc := "", asin := "", quantity := 2,
    unit_retail := 5, total_retail := 10, order_date := "2024-01-01",
    line_item_brands := "", allocated_cogs_per_unit := 5/2 }

def recC : ManifestRecord :=
  { order_id := "o2", listing_id := "", listing_title := "", category := "",
    product_name := "ItemC", upc := "", asin := "", quantity := 3,
    unit_retail := -5, total_retail := 0, order_date := "2024-01-01",
    line_item_brands := "", allocated_cogs_per_unit := -(5/2) }

def hdr7 : SheetRow := [some "Product Name", some "Quantity"]

def cm7 : List (String × Nat) := buildColMap (hdr7.map normCell)

def row7 : SheetRow := [some "Thing", some "-5"]

def wb7 : Workbook := ⟨[[hdr7, row7]]⟩

def rec7 : ManifestRecord :=
  { order_id := "o7", listing_id := "", listing_title := "", category := "",
    product_name := "Thing", upc := "", asin := "", quantity := -5,
    unit_retail := 0, total_retail := 0, order_date := "2024-02-02",
    line_item_brands := "", allocated_cogs_per_unit := 0 }

/-! ## Helper lemmas -/

theorem dropWhile_eq_self_of_all {α : Type} {p : α → Bool} {l : List α}
    (h : ∀ a ∈ l, p a = false) : l.dropWhile p = l := by
  cases l with
  | nil => rfl
  | cons a t =>
    rw [List.dropWhile_cons, h a (List.mem_cons_self a t)]
    simp

theorem stripL_eq_self {l : List Char} (h : ∀ c ∈ l, isPySpace c = false) :
    stripL l = l := by
  unfold stripL
  rw [dropWhile_eq_self_of_all h,
    dropWhile_eq_self_of_all (fun a ha => h a (List.mem_reverse.mp ha)),
    List.reverse_reverse]

theorem isPySpace_eq_false_of_isDigit {c : Char} (h : c.isDigit = true) :
    isPySpace c = false := by
  by_contra hc
  rw [Bool.not_eq_false] at hc
  simp only [isPySpace, Bool.or_eq_true, beq_iff_eq] at hc
  rcases hc with ((((rfl | rfl) | rfl) | rfl) | rfl) | rfl <;> exact absurd h (by decide)

theorem mem_of_isSuffixOf {l₁ l₂ : List Char} (h : l₁.isSuffixOf l₂ = true)
    {c : Char} (hc : c ∈ l₁) : c ∈ l₂ := by
  rw [List.isSuffixOf_iff_suffix] at h
  exact h.subset hc

/-! ## C4: idempotence of UPC cleaning -/

/-- `cleanUpcL` on a non-empty all-digit list is the identity: digits are
not whitespace, an all-digit list has no `".0"` suffix, and the digit
filter keeps everything. -/
theorem cleanUpcL_all_digits {l : List Char} (hne : l ≠ [])
    (hd : ∀ c ∈ l, c.isDigit = true) : cleanUpcL l = l := by
  have hstrip : stripL l = l :=
    stripL_eq_self (fun c hc => isPySpace_eq_false_of_isDigit (hd c hc))
  have hsuf : (['.', '0'].isSuffixOf l) = false := by
    by_contra hc
    rw [Bool.not_eq_false] at hc
    have hdot : '.' ∈ l := mem_of_isSuffixOf hc (by simp)
    exact absurd (hd _ hdot) (by decide)
  have hfilter : l.filter Char.isDigit = l := List.filter_eq_self.mpr hd
  simp only [cleanUpcL, dropDotZeroL, hstrip, hsuf, Bool.false_eq_true,
    if_false, hfilter]
  simp [List.isEmpty_iff, hne]

/-- `cleanUpcL` on a digit-free, strip-stable list is the identity. -/
theorem cleanUpcL_no_digits {l : List Char} (hstrip : stripL l = l)
    (hd : l.filter Char.isDigit = []) : cleanUpcL l = l := by
  have hnd : ∀ c ∈ l, c.isDigit = false := by
    intro c hc
    have := List.filter_eq_nil_iff.mp hd c hc
    simpa using this
  have hsuf : (['.', '0'].isSuffixOf l) = false := by
    by_contra hc
    rw [Bool.not_eq_false] at hc
    have hzero : '0' ∈ l := mem_of_isSuffixOf hc (by simp)
    have := hnd _ hzero
    exact absurd this (by decide)
  simp only [cleanUpcL, dropDotZeroL, hstrip, hsuf, Bool.false_eq_true,
    if_false, hd]
  simp

/-- C4 (amended): UPC cleaning is idempotent on every input whose
once-cleaned value is strip-stable — in particular whenever any digit
survives the cleaning.  (When stripping a trailing `".0"` exposes trailing
whitespace in a digit-free remainder, a second clean also removes that
whitespace, so cleaning is not idempotent on such inputs.) -/
theorem clean_upc_idempotent_of_trim_stable (s : String)
    (h : pyStrip (clean_upc s) = clean_upc s) :
    clean_upc (clean_upc s) = clean_upc s := by
  have h' : stripL (cleanUpcL s.data) = cleanUpcL s.data := by
    have hdata := congrArg String.data h
    simpa [pyStrip, clean_upc] using hdata
  have key : cleanUpcL (cleanUpcL s.data) = cleanUpcL s.data := by
    by_cases hd : (dropDotZeroL (stripL s.data)).filter Char.isDigit = []
    · have hval : cleanUpcL s.data = dropDotZeroL (stripL s.data) := by
        simp only [cleanUpcL, hd]
        simp
      rw [hval] at h' ⊢
      exact cleanUpcL_no_digits h' hd
    · have hval : cleanUpcL s.data = (dropDotZeroL (stripL s.data)).filter Char.isDigit := by
        simp only [cleanUpcL]
        simp [List.isEmpty_iff, hd]
      rw [hval]
      exact cleanUpcL_all_digits hd (fun c hc => (List.mem_filter.mp hc).2)
  simp only [clean_upc]
  rw [key]

/-- C4 witness: a representative cleaned value (digits survive) is a
fixpoint of a second cleaning. -/
theorem clean_upc_idempotent_witness :
    pyStrip (clean_upc " 0061234567 .0") = clean_upc " 0061234567 .0" ∧
    clean_upc (clean_upc " 0061234567 .0") = clean_upc " 0061234567 .0" :=
  ⟨by decide, clean_upc_idempotent_of_trim_stable " 0061234567 .0" (by decide)⟩

/-- C4 counterexample: cleaning is not idempotent as stated.  On
`"ab .0"` the `".0"`-strip exposes a trailing space in a digit-free
remainder: one clean gives `"ab "`, a second clean gives `"ab"`. -/
theorem clean_upc_not_idempotent :
    clean_upc (clean_upc "ab .0") ≠ clean_upc "ab .0" := by decide

/-! ## Inversion helpers for the parser -/

/-- Every record produced by `processRow` is the literal record of the
final branch: its fields are the corresponding field extractors, and its
product name survived the skip filter. -/
theorem processRow_inv {oid : String} {meta : OrderMeta} {ratio : ℚ}
    {cm : List (String × Nat)} {row : SheetRow} {rec : ManifestRecord}
    (h : processRow oid meta ratio cm row = some rec) :
    rec.order_id = oid ∧
    rec.order_date = meta.date ∧
    rec.product_name = pyStrip (getStr cm row "product_name") ∧
    rec.upc = clean_upc (upcRawOf cm row) ∧
    rec.quantity = quantityOf cm row ∧
    rec.unit_retail = unitRetailOf cm row ∧
    rec.total_retail = totalRetailOf cm row ∧
    rec.allocated_cogs_per_unit = unitRetailOf cm row * ratio ∧
    rec.product_name ≠ "" ∧ pyLower rec.product_name ≠ "product name" := by
  simp only [processRow] at h
  by_cases h1 : (row.isEmpty || rowIsBlank row) = true
  · rw [if_pos h1] at h
    exact absurd h (by simp)
  · rw [if_neg h1] at h
    by_cases h2 : (pyStrip (getStr cm row "product_name") == "" ||
        pyLower (pyStrip (getStr cm row "product_name")) == "product name") = true
    · rw [if_pos h2] at h
      exact absurd h (by simp)
    · rw [if_neg h2] at h
      rw [Option.some.injEq] at h
      subst h
      simp only [Bool.or_eq_true, beq_iff_eq, not_or] at h2
      exact ⟨rfl, rfl, rfl, rfl, rfl, rfl, rfl, rfl, h2.1, h2.2⟩

theorem mem_foldl_append {α β : Type} (f : β → List α) (a : α) (l : List β) :
    ∀ init : List α,
      a ∈ l.foldl (fun acc b => acc ++ f b) init ↔ a ∈ init ∨ ∃ b ∈ l, a ∈ f b := by
  induction l with
  | nil => intro init; simp
  | cons b t ih =>
    intro init
    rw [List.foldl_cons, ih]
    simp [List.mem_append, or_assoc]

/-- Every record of `parse_manifest_xlsx` comes from one `processRow` call
with the file-level COGS ratio. -/
theorem mem_parse {wb : Workbook} {oid : String} {meta : OrderMeta}
    {rec : ManifestRecord} (h : rec ∈ parse_manifest_xlsx wb oid meta) :
    ∃ cm row, processRow oid meta (cogsRatio meta) cm row = some rec := by
  simp only [parse_manifest_xlsx] at h
  rw [mem_foldl_append] at h
  rcases h with h | ⟨rows, _, h⟩
  · exact absurd h (List.not_mem_nil rec)
  · rcases hidx : findHeaderIdx rows with _ | i
    · simp only [parseSheet, hidx] at h
      exact absurd h (List.not_mem_nil rec)
    · simp only [parseSheet, hidx] at h
      rw [List.mem_filterMap] at h
      rcases h with ⟨row, _, hrow⟩
      exact ⟨_, row, hrow⟩

/-! ## C1: proportional COGS allocation -/

/-- C1: every emitted record of an order carries
`allocated_cogs_per_unit = unit_retail * (total_cost / total_msrp)` when
the order's `total_msrp` is positive — the same ratio for every record of
the order — and `allocated_cogs_per_unit = 0` when `total_msrp = 0`,
with no division performed in that case. -/
theorem allocated_cogs_ratio {wb : Workbook} {oid : String} {meta : OrderMeta}
    {rec : ManifestRecord} (hrec : rec ∈ parse_manifest_xlsx wb oid meta) :
    (0 < meta.total_msrp →
        rec.allocated_cogs_per_unit =
          rec.unit_retail * (meta.total_cost / meta.total_msrp)) ∧
    (meta.total_msrp = 0 → rec.allocated_cogs_per_unit = 0) := by
  obtain ⟨cm, row, hpr⟩ := mem_parse hrec
  obtain ⟨-, -, -, -, -, hunit, -, halloc, -, -⟩ := processRow_inv hpr
  constructor
  · intro hpos
    rw [halloc, ← hunit, cogsRatio, if_pos hpos]
  · intro hzero
    rw [halloc, cogsRatio, hzero]
    simp

/-! ## C5: product-name skip filter -/

/-- C5: no emitted record has an empty (after trim) product name, nor one
equal to the header text `"product name"` up to case; a row whose
product-name field is such a string is never emitted. -/
theorem product_name_filter {wb : Workbook} {oid : String} {meta : OrderMeta} :
    (∀ rec ∈ parse_manifest_xlsx wb oid meta,
        rec.product_name ≠ "" ∧ pyLower rec.product_name ≠ "product name") ∧
    (∀ (ratio : ℚ) (cm : List (String × Nat)) (row : SheetRow),
        (pyStrip (getStr cm row "product_name") = "" ∨
          pyLower (pyStrip (getStr cm row "product_name")) = "product name") →
        processRow oid meta ratio cm row = none) := by
  constructor
  · intro rec hrec
    obtain ⟨cm, row, hpr⟩ := mem_parse hrec
    obtain ⟨-, -, -, -, -, -, -, -, hne, hnph⟩ := processRow_inv hpr
    exact ⟨hne, hnph⟩
  · intro ratio cm row hcond
    simp only [processRow]
    by_cases h1 : (row.isEmpty || rowIsBlank row) = true
    · rw [if_pos h1]
    · rw [if_neg h1]
      have h2 : (pyStrip (getStr cm row "product_name") == "" ||
          pyLower (pyStrip (getStr cm row "product_name")) == "product name") = true := by
        rcases hcond with hc | hc <;> simp [hc]
      rw [if_pos h2]

/-! ## C10: digit-free UPC passthrough -/

/-- `clean_upc` keeps the stripped, `".0"`-less string when it has no
digits at all. -/
theorem clean_upc_eq_dotZeroStripped {s : String}
    (h : (dotZeroStripped s).data.filter Char.isDigit = []) :
    clean_upc s = dotZeroStripped s := by
  have h' : (dropDotZeroL (stripL s.data)).filter Char.isDigit = [] := by
    simpa [dotZeroStripped] using h
  simp only [clean_upc, dotZeroStripped, cleanUpcL, h']
  simp

/-- `clean_upc` keeps exactly the digit remainder when one exists. -/
theorem clean_upc_eq_digits {s : String}
    (h : (dotZeroStripped s).data.filter Char.isDigit ≠ []) :
    clean_upc s = ⟨(dotZeroStripped s).data.filter Char.isDigit⟩ := by
  have h' : (dropDotZeroL (stripL s.data)).filter Char.isDigit ≠ [] := by
    simpa [dotZeroStripped] using h
  simp only [clean_upc, dotZeroStripped, cleanUpcL]
  simp [List.isEmpty_iff, h']

/-- C10: for a retained row whose UPC cell text, after trimming and
removing a trailing `".0"`, has no digit at all, the emitted `upc` is that
string unchanged; only when at least one digit remains is the emitted
`upc` exactly the digit remainder. -/
theorem upc_digitless_passthrough {oid : String} {meta : OrderMeta} {ratio : ℚ}
    {cm : List (String × Nat)} {row : SheetRow} {rec : ManifestRecord}
    (h : processRow oid meta ratio cm row = some rec) :
    rec.upc = clean_upc (upcRawOf cm row) ∧
    ((dotZeroStripped (upcRawOf cm row)).data.filter Char.isDigit = [] →
        rec.upc = dotZeroStripped (upcRawOf cm row)) ∧
    ((dotZeroStripped (upcRawOf cm row)).data.filter Char.isDigit ≠ [] →
        rec.upc = ⟨(dotZeroStripped (upcRawOf cm row)).data.filter Char.isDigit⟩) := by
  obtain ⟨-, -, -, hupc, -, -, -, -, -, -⟩ := processRow_inv h
  refine ⟨hupc, ?_, ?_⟩
  · intro hnd
    rw [hupc, clean_upc_eq_dotZeroStripped hnd]
  · intro hd
    rw [hupc, clean_upc_eq_digits hd]

/-! ## C2: total-retail fallback -/

/-- C2 (amended): for a retained row, the emitted `total_retail` equals
`unit_retail * quantity` whenever the total-retail cell fails to parse
(unconditionally), whenever it is absent and `unit_retail` is
non-negative, and whenever it parses to exactly `0` while
`unit_retail > 0`.  (When the cell is absent and `unit_retail` is
negative, the parsed default `0` is kept instead.) -/
theorem total_retail_fallback {oid : String} {meta : OrderMeta} {ratio : ℚ}
    {cm : List (String × Nat)} {row : SheetRow} {rec : ManifestRecord}
    (h : processRow oid meta ratio cm row = some rec) :
    (∀ s, get_val cm row "total_retail" = RawVal.val s → parseFloat? s = none →
        rec.total_retail = rec.unit_retail * (rec.quantity : ℚ)) ∧
    (get_val cm row "total_retail" = RawVal.missing → 0 ≤ rec.unit_retail →
        rec.total_retail = rec.unit_retail * (rec.quantity : ℚ)) ∧
    (∀ s, get_val cm row "total_retail" = RawVal.val s → parseFloat? s = some 0 →
        0 < rec.unit_retail →
        rec.total_retail = rec.unit_retail * (rec.quantity : ℚ)) := by
  obtain ⟨-, -, -, -, hq, hu, ht, -, -, -⟩ := processRow_inv h
  rw [ht, hu, hq]
  refine ⟨?_, ?_, ?_⟩
  · intro s hs hp
    simp only [totalRetailOf, hs, hp]
    split_ifs <;> rfl
  · intro hmiss hnn
    simp only [totalRetailOf, hmiss]
    rcases eq_or_lt_of_le hnn with heq | hlt
    · rw [if_neg]
      · rw [← heq, zero_mul]
      · intro hc
        exact absurd hc.2 (by rw [← heq]; exact lt_irrefl 0)
    · rw [if_pos ⟨trivial, hlt⟩]
  · intro s hs hp hpos
    simp only [totalRetailOf, hs, hp]
    rw [if_pos ⟨trivial, hpos⟩]

/-! ## C7: record bounds -/

/-- C7 (amended): the defaults are as specified (`quantity = 1` when its
cell is absent or unparsable, `unit_retail = 0` when its cell is absent or
unparsable), and `quantity`, `unit_retail` and `total_retail` are
non-negative whenever every value actually parsed from the corresponding
cells is non-negative.  (The code does not clamp: a negative cell value
propagates to the record.) -/
theorem record_bounds {oid : String} {meta : OrderMeta} {ratio : ℚ}
    {cm : List (String × Nat)} {row : SheetRow} {rec : ManifestRecord}
    (h : processRow oid meta ratio cm row = some rec) :
    (get_val cm row "quantity" = RawVal.missing → rec.quantity = 1) ∧
    (∀ s, get_val cm row "quantity" = RawVal.val s → parseFloat? s = none →
        rec.quantity = 1) ∧
    (get_val cm row "unit_retail" = RawVal.missing → rec.unit_retail = 0) ∧
    (∀ s, get_val cm row "unit_retail" = RawVal.val s → parseFloat? s = none →
        rec.unit_retail = 0) ∧
    ((∀ s x, get_val cm row "quantity" = RawVal.val s → parseFloat? s = some x →
        0 ≤ x) → 0 ≤ rec.quantity) ∧
    ((∀ s x, get_val cm row "unit_retail" = RawVal.val s → parseFloat? s = some x →
        0 ≤ x) → 0 ≤ rec.unit_retail) ∧
    (0 ≤ rec.quantity → 0 ≤ rec.unit_retail →
      (∀ s x, get_val cm row "total_retail" = RawVal.val s → parseFloat? s = some x →
        0 ≤ x) → 0 ≤ rec.total_retail) := by
  obtain ⟨-, -, -, -, hq, hu, ht, -, -, -⟩ := processRow_inv h
  rw [hq, hu, ht]
  refine ⟨?_, ?_, ?_, ?_, ?_, ?_, ?_⟩
  · intro hmiss
    simp [quantityOf, hmiss]
  · intro s hs hp
    simp [quantityOf, hs, hp]
  · intro hmiss
    simp [unitRetailOf, hmiss]
  · intro s hs hp
    simp [unitRetailOf, hs, hp]
  · intro hnn
    rcases hgv : get_val cm row "quantity" with _ | s
    · simp [quantityOf, hgv]
    · simp only [quantityOf, hgv]
      rcases hp : parseFloat? s with _ | x
      · simp
      · have hx : 0 ≤ x := hnn s x hgv hp
        simp only [pyTrunc]
        exact Int.tdiv_nonneg (Rat.num_nonneg.mpr hx) (by positivity)
  · intro hnn
    rcases hgv : get_val cm row "unit_retail" with _ | s
    · simp [unitRetailOf, hgv]
    · simp only [unitRetailOf, hgv]
      rcases hp : parseFloat? s with _ | x
      · simp
      · exact hnn s x hgv hp
  · intro hqnn hunn hnn
    have hprod : 0 ≤ unitRetailOf cm row * ((quantityOf cm row : Int) : ℚ) :=
      mul_nonneg hunn (by exact_mod_cast hqnn)
    rcases hgv : get_val cm row "total_retail" with _ | s
    · simp only [totalRetailOf, hgv]
      split_ifs with hif
      · exact hprod
      · exact le_refl 0
    · simp only [totalRetailOf, hgv]
      rcases hp : parseFloat? s with _ | x
      · simp only []
        split_ifs with hif
        · exact hprod
        · exact hprod
      · have hx : 0 ≤ x := hnn s x hgv hp
        simp only []
        split_ifs with hif
        · exact hprod
        · exact hx

/-! ## C3: header-row detection -/

/-- The code's header test agrees with the claim-side reading: the code
additionally skips falsy cells (`None`, `""`), but the empty string's
trimmed, lowercased text is not in the vocabulary anyway. -/
theorem isHeaderRow_iff {row : SheetRow} :
    isHeaderRow row = true ↔ headerVocabCell row := by
  rw [isHeaderRow, List.any_eq_true]
  constructor
  · rintro ⟨c, hc, hcell⟩
    rcases c with _ | s
    · exact absurd hcell (by simp)
    · rw [Bool.and_eq_true] at hcell
      obtain ⟨hne, hmem⟩ := hcell
      refine ⟨some s, hc, s, rfl, ?_⟩
      rw [strMem, List.any_eq_true] at hmem
      obtain ⟨t, ht, heq⟩ := hmem
      rw [beq_iff_eq] at heq
      rw [heq]
      exact ht
  · rintro ⟨c, hc, s, rfl, hmem⟩
    refine ⟨some s, hc, ?_⟩
    have hsne : s ≠ "" := by
      rintro rfl
      exact absurd hmem (by decide)
    rw [Bool.and_eq_true]
    constructor
    · simpa using hsne
    · rw [strMem, List.any_eq_true]
      exact ⟨pyLower (pyStrip s), hmem, by simp⟩

theorem findHeaderIdx_some {rows : List SheetRow} {i : Nat}
    (h : findHeaderIdx rows = some i) :
    i < rows.length ∧ isHeaderRow (rows.getD i []) = true ∧
      ∀ j, j < i → isHeaderRow (rows.getD j []) = false := by
  induction rows generalizing i with
  | nil => cases h
  | cons r rest ih =>
    rw [findHeaderIdx] at h
    by_cases hr : isHeaderRow r = true
    · rw [if_pos hr, Option.some.injEq] at h
      subst h
      exact ⟨by simp, by simpa using hr,
        fun j hj => absurd hj (Nat.not_lt_zero j)⟩
    · rw [if_neg hr, Option.map_eq_some'] at h
      obtain ⟨i', hi', rfl⟩ := h
      obtain ⟨hlen, hhead, hbefore⟩ := ih hi'
      rw [Bool.not_eq_true] at hr
      refine ⟨by simpa using Nat.succ_lt_succ hlen, by simpa using hhead, ?_⟩
      intro j hj
      cases j with
      | zero => simpa using hr
      | succ j' =>
        rw [List.getD_cons_succ]
        exact hbefore j' (Nat.lt_of_succ_lt_succ hj)

theorem findHeaderIdx_none {rows : List SheetRow}
    (h : ∀ row ∈ rows, isHeaderRow row = false) : findHeaderIdx rows = none := by
  induction rows with
  | nil => rfl
  | cons r rest ih =>
    rw [findHeaderIdx,
      if_neg (by rw [h r (List.mem_cons_self r rest)]; exact Bool.false_ne_true),
      ih (fun row hrow => h row (List.mem_cons_of_mem r hrow))]
    rfl

/-- C3: per sheet, the chosen header row is the first row (top to bottom)
with a non-null cell whose trimmed, lowercased text equals a canonical
header name; data rows are taken only strictly below it, and a sheet with
no such row contributes zero records. -/
theorem header_detection (oid : String) (meta : OrderMeta) (ratio : ℚ)
    (rows : List SheetRow) :
    (∀ i, findHeaderIdx rows = some i →
        i < rows.length ∧ headerVocabCell (rows.getD i []) ∧
        (∀ j, j < i → ¬ headerVocabCell (rows.getD j [])) ∧
        parseSheet oid meta ratio rows =
          (rows.drop (i + 1)).filterMap
            (processRow oid meta ratio
              (buildColMap ((rows.getD i []).map normCell)))) ∧
    ((∀ row ∈ rows, ¬ headerVocabCell row) →
        parseSheet oid meta ratio rows = []) := by
  constructor
  · intro i hi
    obtain ⟨hlen, hhead, hbefore⟩ := findHeaderIdx_some hi
    refine ⟨hlen, isHeaderRow_iff.mp hhead, ?_, ?_⟩
    · intro j hj hvc
      have hb := isHeaderRow_iff.mpr hvc
      rw [hbefore j hj] at hb
      exact Bool.false_ne_true hb
    · simp only [parseSheet, hi]
  · intro hnone
    have h0 : ∀ row ∈ rows, isHeaderRow row = false := by
      intro row hrow
      rw [← Bool.not_eq_true]
      intro hc
      exact hnone row hrow (isHeaderRow_iff.mp hc)
    simp only [parseSheet, findHeaderIdx_none h0]

theorem header_detection_witness :
    headerVocabCell (rows3.getD 1 []) ∧ ¬ headerVocabCell (rows3.getD 0 []) ∧
    parseSheet "o" ⟨"", 0, 0, []⟩ 0 rows3 =
      (rows3.drop 2).filterMap
        (processRow "o" ⟨"", 0, 0, []⟩ 0
          (buildColMap ((rows3.getD 1 []).map normCell))) := by
  have h := (header_detection "o" ⟨"", 0, 0, []⟩ 0 rows3).1 1 (by decide)
  exact ⟨h.2.1, h.2.2.1 0 (by decide), h.2.2.2⟩

/-! ## C6: brand extraction from titles -/

theorem foldl_append_eq_flatMap {α β : Type} (g : β → List α) (l : List β) :
    ∀ init : List α, l.foldl (fun m b => m ++ g b) init = init ++ l.flatMap g := by
  induction l with
  | nil => intro init; simp
  | cons b t ih =>
    intro init
    rw [List.foldl_cons, ih, List.flatMap_cons, List.append_assoc]

theorem buildPalletBrands_eq (items : List OrderItem) :
    buildPalletBrands items =
      items.flatMap
        (fun it => it.pallet_ids.map (fun pid => (pid, brandsOfTitle it.title))) := by
  rw [buildPalletBrands, foldl_append_eq_flatMap, List.nil_append]

/-- C6: in the `pallet_brands` map, every pallet id of an item is bound to
the second `" - "`-separated part of that item's title when the title has
at least three such parts, and to `""` otherwise.  (When several items list
the same pallet id, the last such item's assignment wins, as for repeated
dict assignment; the hypothesis pins `item` as that last holder.) -/
theorem brands_attached (pre post : List OrderItem) (item : OrderItem)
    (pid : String) (hmem : pid ∈ item.pallet_ids)
    (hpost : ∀ it ∈ post, pid ∉ it.pallet_ids) :
    dictLookup (buildPalletBrands (pre ++ item :: post)) pid =
      some (brandsOfTitle item.title) ∧
    (3 ≤ (pySplit item.title " - ").length →
        brandsOfTitle item.title = (pySplit item.title " - ").getD 1 "") ∧
    ((pySplit item.title " - ").length < 3 → brandsOfTitle item.title = "") := by
  refine ⟨?_, ?_, ?_⟩
  · rw [buildPalletBrands_eq, dictLookup, List.flatMap_append, List.flatMap_cons]
    rw [List.reverse_append, List.reverse_append, List.find?_append, List.find?_append]
    have hpostnone :
        ((post.flatMap (fun it =>
            it.pallet_ids.map (fun pid' => (pid', brandsOfTitle it.title)))).reverse).find?
          (fun p => p.1 == pid) = none := by
      rw [List.find?_eq_none]
      intro x hx
      rw [List.mem_reverse, List.mem_flatMap] at hx
      obtain ⟨it, hit, hxit⟩ := hx
      rw [List.mem_map] at hxit
      obtain ⟨pid', hpid', rfl⟩ := hxit
      simp only [beq_iff_eq]
      rintro rfl
      exact hpost it hit hpid'
    have hitem :
        ∃ y, (item.pallet_ids.map
            (fun pid' => (pid', brandsOfTitle item.title))).reverse.find?
          (fun p => p.1 == pid) = some y ∧ y.2 = brandsOfTitle item.title := by
      have hsome : ((item.pallet_ids.map
          (fun pid' => (pid', brandsOfTitle item.title))).reverse.find?
            (fun p => p.1 == pid)).isSome := by
        rw [List.find?_isSome]
        refine ⟨(pid, brandsOfTitle item.title), ?_, by simp⟩
        rw [List.mem_reverse, List.mem_map]
        exact ⟨pid, hmem, rfl⟩
      obtain ⟨y, hy⟩ := Option.isSome_iff_exists.mp hsome
      refine ⟨y, hy, ?_⟩
      have hymem := List.mem_of_find?_eq_some hy
      rw [List.mem_reverse, List.mem_map] at hymem
      obtain ⟨pid', _, rfl⟩ := hymem
      rfl
    obtain ⟨y, hy, hy2⟩ := hitem
    rw [hpostnone, Option.none_or, hy]
    simp [Option.or, hy2]
  · intro hlen
    simp only [brandsOfTitle]
    rw [if_pos hlen]
  · intro hlen
    simp only [brandsOfTitle]
    rw [if_neg (not_le.mpr hlen)]

theorem brands_attached_witness :
    dictLookup (buildPalletBrands [itemV]) "P1" = some "iRobot, BISSELL, Shark" ∧
    dictLookup (buildPalletBrands [itemV]) "P2" = some "iRobot, BISSELL, Shark" := by
  have h1 := (brands_attached [] [] itemV "P1" (by decide) (by simp)).1
  have h2 := (brands_attached [] [] itemV "P2" (by decide) (by simp)).1
  have hb : brandsOfTitle itemV.title = "iRobot, BISSELL, Shark" := by decide
  rw [hb] at h1 h2
  exact ⟨h1, h2⟩

/-! ## C8: order id from filename -/

theorem replaceAuxL_nil (pat rep : List Char) (fuel : Nat) :
    replaceAuxL pat rep fuel [] = [] := by
  cases fuel <;> rfl

theorem replaceAuxL_no_match (pat rep : List Char) :
    ∀ (fuel : Nat) (s : List Char), s.length ≤ fuel →
      (∀ i, pat.isPrefixOf (s.drop i) = false) →
      replaceAuxL pat rep fuel s = s := by
  intro fuel
  induction fuel with
  | zero =>
    intro s _ _
    rfl
  | succ f ih =>
    intro s hs hnm
    cases s with
    | nil => rfl
    | cons c rest =>
      rw [replaceAuxL]
      have h0 : pat.isPrefixOf (c :: rest) = false := by simpa using hnm 0
      rw [h0, Bool.and_false]
      simp only [Bool.false_eq_true, if_false]
      congr 1
      refine ih rest (by simpa using Nat.le_of_succ_le_succ hs) ?_
      intro i
      simpa using hnm (i + 1)

theorem replaceAuxL_head_match (pat rep t : List Char) (f : Nat) (hne : pat ≠ []) :
    replaceAuxL pat rep (f + 1) (pat ++ t) =
      rep ++ replaceAuxL pat rep f ((pat ++ t).drop pat.length) := by
  cases pat with
  | nil => exact absurd rfl hne
  | cons p ps =>
    rw [List.cons_append, replaceAuxL]
    have hpre : (p :: ps).isPrefixOf (p :: (ps ++ t)) = true := by
      rw [← List.cons_append, List.isPrefixOf_iff_prefix]
      exact ⟨t, rfl⟩
    have hcond : ((p :: ps ≠ []) && (p :: ps).isPrefixOf (p :: (ps ++ t))) = true := by
      rw [Bool.and_eq_true]
      exact ⟨by simp, hpre⟩
    rw [hcond, if_pos rfl, ← List.cons_append]

theorem replaceAuxL_strip_head {P rest : List Char} (hne : P ≠ [])
    {fuel : Nat} (hf : rest.length < fuel)
    (hno : ∀ i, P.isPrefixOf (rest.drop i) = false) :
    replaceAuxL P [] fuel (P ++ rest) = rest := by
  cases fuel with
  | zero => exact absurd hf (Nat.not_lt_zero _)
  | succ f =>
    rw [replaceAuxL_head_match P [] rest f hne, List.nil_append, List.drop_left]
    exact replaceAuxL_no_match P [] f rest (Nat.lt_succ_iff.mp hf) hno

theorem replaceAuxL_suffix_only (S : List Char) (hne : S ≠ []) :
    ∀ (u : List Char) (fuel : Nat), (u ++ S).length ≤ fuel →
      (∀ i, i < u.length → S.isPrefixOf ((u ++ S).drop i) = false) →
      replaceAuxL S [] fuel (u ++ S) = u := by
  intro u
  induction u with
  | nil =>
    intro fuel hlen _
    rw [List.nil_append] at hlen ⊢
    cases fuel with
    | zero =>
      have hS : S = [] := List.length_eq_zero.mp (Nat.le_zero.mp hlen)
      exact absurd hS hne
    | succ f =>
      cases S with
      | nil => exact absurd rfl hne
      | cons c rest =>
        have hpre : (c :: rest).isPrefixOf (c :: rest) = true := by
          rw [ List.isPrefixOf_iff_prefix]
        have hcond : ((c :: rest ≠ []) && (c :: rest).isPrefixOf (c :: rest)) = true := by
          rw [Bool.and_eq_true]
          exact ⟨by simp, hpre⟩
        rw [replaceAuxL, hcond, if_pos rfl, List.drop_length, replaceAuxL_nil,
          List.nil_append]
  | cons c u' ih =>
    intro fuel hlen hnm
    cases fuel with
    | zero =>
      rw [List.cons_append] at hlen
      exact absurd hlen (by simp)
    | succ f =>
      rw [List.cons_append, replaceAuxL]
      have h0 : S.isPrefixOf (c :: (u' ++ S)) = false := by
        have h00 := hnm 0 (by simp)
        rw [List.drop_zero, List.cons_append] at h00
        exact h00
      rw [h0, Bool.and_false]
      simp only [Bool.false_eq_true, if_false]
      congr 1
      refine ih f ?_ ?_
      · rw [List.cons_append, List.length_cons] at hlen
        exact Nat.le_of_succ_le_succ hlen
      · intro i hi
        have h01 := hnm (i + 1) (by simpa using Nat.succ_lt_succ hi)
        rw [List.cons_append, List.drop_succ_cons] at h01
        exact h01

/-- C8 (amended): for a filename `order_manifest_<oid>.xlsx`, the derived
order id is exactly `<oid>` provided `"order_manifest_"` occurs nowhere in
`<oid>.xlsx` and `".xlsx"` occurs in `<oid>.xlsx` only as its final
suffix.  (The code strips the prefix and suffix by global substring
replacement, so an order id containing either pattern is mangled.) -/
theorem order_id_from_filename (oid : String)
    (h1 : ∀ i, i < (oid.data ++ ".xlsx".data).length →
        "order_manifest_".data.isPrefixOf ((oid.data ++ ".xlsx".data).drop i) = false)
    (h2 : ∀ i, i < oid.data.length →
        ".xlsx".data.isPrefixOf ((oid.data ++ ".xlsx".data).drop i) = false) :
    extract_order_id ("order_manifest_" ++ oid ++ ".xlsx") = oid := by
  have h1' : ∀ i,
      "order_manifest_".data.isPrefixOf ((oid.data ++ ".xlsx".data).drop i) = false := by
    intro i
    by_cases hi : i < (oid.data ++ ".xlsx".data).length
    · exact h1 i hi
    · rw [List.drop_eq_nil_of_le (le_of_not_lt hi)]
      decide
  have hF : ("order_manifest_" ++ oid ++ ".xlsx").data =
      "order_manifest_".data ++ (oid.data ++ ".xlsx".data) := by
    rw [String.data_append, String.data_append, List.append_assoc]
  have hstep1 : pyReplace ("order_manifest_" ++ oid ++ ".xlsx") "order_manifest_" "" =
      ⟨oid.data ++ ".xlsx".data⟩ := by
    rw [pyReplace, hF]
    congr 1
    refine replaceAuxL_strip_head (by decide) ?_ h1'
    have hgen : ∀ P R : List Char, 0 < P.length → R.length < (P ++ R).length := by
      intro P R hP
      rw [List.length_append]
      omega
    exact hgen _ _ (by decide)
  rw [extract_order_id, hstep1, pyReplace]
  have hdata : (⟨oid.data ++ ".xlsx".data⟩ : String).data = oid.data ++ ".xlsx".data := rfl
  rw [hdata]
  have hfinal : replaceAuxL ".xlsx".data "".data (oid.data ++ ".xlsx".data).length
      (oid.data ++ ".xlsx".data) = oid.data :=
    replaceAuxL_suffix_only ".xlsx".data (by decide) oid.data _ (le_refl _) h2
  rw [hfinal]

/-- C8 witness: a plain numeric order id round-trips. -/
theorem order_id_from_filename_witness :
    extract_order_id ("order_manifest_" ++ "12345" ++ ".xlsx") = "12345" :=
  order_id_from_filename "12345" (by decide) (by decide)

/-- C8 counterexample: the code replaces every occurrence of the prefix
and the suffix, so the order id `"1.xlsx2"` (whose manifest filename
matches the pattern) is mangled to `"12"`. -/
theorem order_id_from_filename_counterexample :
    extract_order_id ("order_manifest_" ++ "1.xlsx2" ++ ".xlsx") = "12" ∧
    "12" ≠ "1.xlsx2" := ⟨by decide, by decide⟩

/-! ## C9: per-record retry and rollback accounting -/

theorem runUpserts_foldl_aux :
    ∀ (l : List (Nat × SinkOutcome)) (st : RunState),
      (l.foldl (fun st p => upsertStep st p.1 p.2) st).errors =
          st.errors + (l.map Prod.snd).countP (fun o => o.fail1 && o.fail2) ∧
      (l.foldl (fun st p => upsertStep st p.1 p.2) st).inserted =
          st.inserted + (l.map Prod.snd).countP (fun o => !o.fail1 || !o.fail2) ∧
      (l.foldl (fun st p => upsertStep st p.1 p.2) st).attempts =
          st.attempts ++ (l.map Prod.snd).map (fun o => if o.fail1 then 2 else 1) := by
  intro l
  induction l with
  | nil =>
    intro st
    simp
  | cons p t ih =>
    intro st
    rw [List.foldl_cons]
    obtain ⟨he, hi, ha⟩ := ih (upsertStep st p.1 p.2)
    have hstep_err : (upsertStep st p.1 p.2).errors =
        st.errors + (if (p.2.fail1 && p.2.fail2) = true then 1 else 0) := by
      rcases hf1 : p.2.fail1 <;> rcases hf2 : p.2.fail2 <;>
        simp [upsertStep, hf1, hf2]
    have hstep_ins : (upsertStep st p.1 p.2).inserted =
        st.inserted + (if (!p.2.fail1 || !p.2.fail2) = true then 1 else 0) := by
      rcases hf1 : p.2.fail1 <;> rcases hf2 : p.2.fail2 <;>
        simp [upsertStep, hf1, hf2]
    have hstep_att : (upsertStep st p.1 p.2).attempts =
        st.attempts ++ [if p.2.fail1 then 2 else 1] := by
      rcases hf1 : p.2.fail1 <;> rcases hf2 : p.2.fail2 <;>
        simp [upsertStep, hf1, hf2]
    refine ⟨?_, ?_, ?_⟩
    · rw [he, hstep_err, List.map_cons, List.countP_cons]
      omega
    · rw [hi, hstep_ins, List.map_cons, List.countP_cons]
      omega
    · rw [ha, hstep_att, List.map_cons, List.map_cons]
      simp

/-- C9 (amended): the upsert loop processes every record; a record whose
first upsert raises is retried exactly once (two `execute` calls, one
otherwise); the final error count equals the number of records whose both
attempts failed; and `inserted + errors` accounts for every record.  The
`conn.rollback()` taken on a failure discards the whole open transaction —
every uncommitted record effect — not just the failing record's (see the
counterexample). -/
theorem upsert_retry_accounting (outcomes : List SinkOutcome) :
    (runUpserts outcomes).errors =
        outcomes.countP (fun o => o.fail1 && o.fail2) ∧
    (runUpserts outcomes).attempts =
        outcomes.map (fun o => if o.fail1 then 2 else 1) ∧
    (runUpserts outcomes).inserted =
        outcomes.countP (fun o => !o.fail1 || !o.fail2) ∧
    (runUpserts outcomes).inserted + (runUpserts outcomes).errors =
        outcomes.length := by
  obtain ⟨he, hi, ha⟩ := runUpserts_foldl_aux outcomes.enum
    { inserted := 0, errors := 0, pending := [], committed := [], attempts := [] }
  rw [List.enum_map_snd] at he hi ha
  have hrun_err : (runUpserts outcomes).errors =
      outcomes.countP (fun o => o.fail1 && o.fail2) := by
    simp only [runUpserts]
    rw [he]
    simp
  have hrun_ins : (runUpserts outcomes).inserted =
      outcomes.countP (fun o => !o.fail1 || !o.fail2) := by
    simp only [runUpserts]
    rw [hi]
    simp
  have hrun_att : (runUpserts outcomes).attempts =
      outcomes.map (fun o => if o.fail1 then 2 else 1) := by
    simp only [runUpserts]
    rw [ha]
    simp
  refine ⟨hrun_err, hrun_att, hrun_ins, ?_⟩
  rw [hrun_err, hrun_ins]
  have hlen := List.length_eq_countP_add_countP (fun o : SinkOutcome => o.fail1 && o.fail2) outcomes
  have hcong : outcomes.countP (fun o => !o.fail1 || !o.fail2) =
      outcomes.countP (fun o : SinkOutcome => decide ¬(o.fail1 && o.fail2) = true) := by
    apply List.countP_congr
    intro o _
    rcases hf1 : o.fail1 <;> rcases hf2 : o.fail2 <;> simp [hf1, hf2]
  rw [hcong]
  omega

/-- C9 counterexample: with record 0 succeeding and record 1 failing both
attempts, the code's `conn.rollback()` discards the whole open transaction,
so record 0's effect is not committed even though its upsert never failed —
unlike the claim's record-scoped rollback, under which record 0's effect
survives to the commit. -/
theorem rollback_not_record_scoped :
    (runUpserts [⟨false, false⟩, ⟨true, true⟩]).committed = [] ∧
    (runUpsertsRecordScoped [⟨false, false⟩, ⟨true, true⟩]).committed = [0] ∧
    (runUpserts [⟨false, false⟩, ⟨true, true⟩]).errors = 1 ∧
    (runUpserts [⟨false, false⟩, ⟨true, true⟩]).inserted = 1 :=
  ⟨rfl, rfl, rfl, rfl⟩

/-! ## Concrete fixtures for witnesses and counterexamples -/

theorem pf2 : parseFloat? "2" = some 2 := by
  simp +decide [parseFloat?, parseFloatCore, stripL, digitsVal]

theorem pf5 : parseFloat? "5" = some 5 := by
  simp +decide [parseFloat?, parseFloatCore, stripL, digitsVal]

theorem pf3 : parseFloat? "3" = some 3 := by
  simp +decide [parseFloat?, parseFloatCore, stripL, digitsVal]

theorem pf10 : parseFloat? "10" = some 10 := by
  simp +decide [parseFloat?, parseFloatCore, stripL, digitsVal]

theorem pf0 : parseFloat? "0" = some 0 := by
  simp +decide [parseFloat?, parseFloatCore, stripL, digitsVal]

theorem pfm5 : parseFloat? "-5" = some (-5) := by
  simp +decide [parseFloat?, parseFloatCore, stripL, digitsVal]

theorem evalRowW : processRow "o1" metaW (cogsRatio metaW) cmW rowW = some recW := by
  have hq : get_val cmW rowW "quantity" = RawVal.val "2" := by decide
  have hu : get_val cmW rowW "unit_retail" = RawVal.val "5" := by decide
  have ht : get_val cmW rowW "total_retail" = RawVal.missing := by decide
  have hblank : (rowW.isEmpty || rowIsBlank rowW) = false := by decide
  have hpn : pyStrip (getStr cmW rowW "product_name") = "Widget" := by decide
  have hli : pyStrip (getStr cmW rowW "listing_id") = "" := by decide
  have hlt : pyStrip (getStr cmW rowW "listing_title") = "" := by decide
  have hct : pyStrip (getStr cmW rowW "category") = "" := by decide
  have hupc : clean_upc (upcRawOf cmW rowW) = "12345" := by decide
  have hasin : asinOf cmW rowW = "" := by decide
  have hqv : quantityOf cmW rowW = 2 := by
    rw [quantityOf, hq]
    simp [pf2, pyTrunc]
  have huv : unitRetailOf cmW rowW = 5 := by
    rw [unitRetailOf, hu]
    simp [pf5]
  have htv : totalRetailOf cmW rowW = 10 := by
    rw [totalRetailOf, ht, huv, hqv]
    norm_num
  have hratio : cogsRatio metaW = 1/2 := by
    rw [cogsRatio]
    norm_num [metaW]
  rw [processRow, hblank]
  simp only [Bool.false_eq_true, if_false, hpn, hli, hlt, hct, hupc, hasin, hqv,
    huv, htv, hratio]
  norm_num [recW, metaW, dictGetD, dictLookup]
  decide

theorem evalRowX : processRow "o1" metaW (cogsRatio metaW) cmW rowX = some recX := by
  have hq : get_val cmW rowX "quantity" = RawVal.val "2" := by decide
  have hu : get_val cmW rowX "unit_retail" = RawVal.val "5" := by decide
  have ht : get_val cmW rowX "total_retail" = RawVal.missing := by decide
  have hblank : (rowX.isEmpty || rowIsBlank rowX) = false := by decide
  have hpn : pyStrip (getStr cmW rowX "product_name") = "Gadget" := by decide
  have hli : pyStrip (getStr cmW rowX "listing_id") = "" := by decide
  have hlt : pyStrip (getStr cmW rowX "listing_title") = "" := by decide
  have hct : pyStrip (getStr cmW rowX "category") = "" := by decide
  have hupc : clean_upc (upcRawOf cmW rowX) = "no-upc" := by decide
  have hasin : asinOf cmW rowX = "" := by decide
  have hqv : quantityOf cmW rowX = 2 := by
    rw [quantityOf, hq]
    simp [pf2, pyTrunc]
  have huv : unitRetailOf cmW rowX = 5 := by
    rw [unitRetailOf, hu]
    simp [pf5]
  have htv : totalRetailOf cmW rowX = 10 := by
    rw [totalRetailOf, ht, huv, hqv]
    norm_num
  have hratio : cogsRatio metaW = 1/2 := by
    rw [cogsRatio]
    norm_num [metaW]
  rw [processRow, hblank]
  simp only [Bool.false_eq_true, if_false, hpn, hli, hlt, hct, hupc, hasin, hqv,
    huv, htv, hratio]
  norm_num [recX, metaW, dictGetD, dictLookup]
  decide

theorem evalRowW0 : processRow "o0" meta0 (cogsRatio meta0) cmW rowW = some recW0 := by
  have hq : get_val cmW rowW "quantity" = RawVal.val "2" := by decide
  have hu : get_val cmW rowW "unit_retail" = RawVal.val "5" := by decide
  have ht : get_val cmW rowW "total_retail" = RawVal.missing := by decide
  have hblank : (rowW.isEmpty || rowIsBlank rowW) = false := by decide
  have hpn : pyStrip (getStr cmW rowW "product_name") = "Widget" := by decide
  have hli : pyStrip (getStr cmW rowW "listing_id") = "" := by decide
  have hlt : pyStrip (getStr cmW rowW "listing_title") = "" := by decide
  have hct : pyStrip (getStr cmW rowW "category") = "" := by decide
  have hupc : clean_upc (upcRawOf cmW rowW) = "12345" := by decide
  have hasin : asinOf cmW rowW = "" := by decide
  have hqv : quantityOf cmW rowW = 2 := by
    rw [quantityOf, hq]
    simp [pf2, pyTrunc]
  have huv : unitRetailOf cmW rowW = 5 := by
    rw [unitRetailOf, hu]
    simp [pf5]
  have htv : totalRetailOf cmW rowW = 10 := by
    rw [totalRetailOf, ht, huv, hqv]
    norm_num
  have hratio : cogsRatio meta0 = 0 := by
    rw [cogsRatio]
    norm_num [meta0]
  rw [processRow, hblank]
  simp only [Bool.false_eq_true, if_false, hpn, hli, hlt, hct, hupc, hasin, hqv,
    huv, htv, hratio]
  norm_num [recW0, meta0, dictGetD, dictLookup]
  decide

theorem parseW : parse_manifest_xlsx wbW "o1" metaW = [recW, recX] := by
  have hidx : findHeaderIdx [hdrW, rowW, rowX] = some 0 := by decide
  have hcm : buildColMap (([hdrW, rowW, rowX].getD 0 []).map normCell) = cmW := by decide
  simp only [parse_manifest_xlsx, wbW, List.foldl_cons, List.foldl_nil,
    List.nil_append]
  simp only [parseSheet, hidx, hcm]
  simp only [List.drop_succ_cons, List.drop_zero]
  simp only [List.filterMap_cons, List.filterMap_nil, evalRowW, evalRowX]

theorem parse0 : parse_manifest_xlsx wb0 "o0" meta0 = [recW0] := by
  have hidx : findHeaderIdx [hdrW, rowW] = some 0 := by decide
  have hcm : buildColMap (([hdrW, rowW].getD 0 []).map normCell) = cmW := by decide
  simp only [parse_manifest_xlsx, wb0, List.foldl_cons, List.foldl_nil,
    List.nil_append]
  simp only [parseSheet, hidx, hcm]
  simp only [List.drop_succ_cons, List.drop_zero]
  simp only [List.filterMap_cons, List.filterMap_nil, evalRowW0]

theorem evalRowA : processRow "o2" metaW (cogsRatio metaW) cm2 rowA = some recA := by
  have hq : get_val cm2 rowA "quantity" = RawVal.val "3" := by decide
  have hu : get_val cm2 rowA "unit_retail" = RawVal.val "10" := by decide
  have ht : get_val cm2 rowA "total_retail" = RawVal.missing := by decide
  have hblank : (rowA.isEmpty || rowIsBlank rowA) = false := by decide
  have hpn : pyStrip (getStr cm2 rowA "product_name") = "ItemA" := by decide
  have hli : pyStrip (getStr cm2 rowA "listing_id") = "" := by decide
  have hlt : pyStrip (getStr cm2 rowA "listing_title") = "" := by decide
  have hct : pyStrip (getStr cm2 rowA "category") = "" := by decide
  have hupc : clean_upc (upcRawOf cm2 rowA) = "" := by decide
  have hasin : asinOf cm2 rowA = "" := by decide
  have hqv : quantityOf cm2 rowA = 3 := by
    rw [quantityOf, hq]
    simp [pf3, pyTrunc]
  have huv : unitRetailOf cm2 rowA = 10 := by
    rw [unitRetailOf, hu]
    simp [pf10]
  have htv : totalRetailOf cm2 rowA = 30 := by
    rw [totalRetailOf, ht, huv, hqv]
    norm_num
  have hratio : cogsRatio metaW = 1/2 := by
    rw [cogsRatio]
    norm_num [metaW]
  rw [processRow, hblank]
  simp only [Bool.false_eq_true, if_false, hpn, hli, hlt, hct, hupc, hasin, hqv,
    huv, htv, hratio]
  norm_num [recA, metaW, dictGetD, dictLookup]
  decide

theorem evalRowB : processRow "o2" metaW (cogsRatio metaW) cm2 rowB = some recB := by
  have hq : get_val cm2 rowB "quantity" = RawVal.val "2" := by decide
  have hu : get_val cm2 rowB "unit_retail" = RawVal.val "5" := by decide
  have ht : get_val cm2 rowB "total_retail" = RawVal.val "0" := by decide
  have hblank : (rowB.isEmpty || rowIsBlank rowB) = false := by decide
  have hpn : pyStrip (getStr cm2 rowB "product_name") = "ItemB" := by decide
  have hli : pyStrip (getStr cm2 rowB "listing_id") = "" := by decide
  have hlt : pyStrip (getStr cm2 rowB "listing_title") = "" := by decide
  have hct : pyStrip (getStr cm2 rowB "category") = "" := by decide
  have hupc : clean_upc (upcRawOf cm2 rowB) = "" := by decide
  have hasin : asinOf cm2 rowB = "" := by decide
  have hqv : quantityOf cm2 rowB = 2 := by
    rw [quantityOf, hq]
    simp [pf2, pyTrunc]
  have huv : unitRetailOf cm2 rowB = 5 := by
    rw [unitRetailOf, hu]
    simp [pf5]
  have htv : totalRetailOf cm2 rowB = 10 := by
    rw [totalRetailOf, ht, huv, hqv]
    simp only [pf0]
    norm_num
  have hratio : cogsRatio metaW = 1/2 := by
    rw [cogsRatio]
    norm_num [metaW]
  rw [processRow, hblank]
  simp only [Bool.false_eq_true, if_false, hpn, hli, hlt, hct, hupc, hasin, hqv,
    huv, htv, hratio]
  norm_num [recB, metaW, dictGetD, dictLookup]
  decide

theorem evalRowC : processRow "o2" metaW (cogsRatio metaW) cm2 rowC = some recC := by
  have hq : get_val cm2 rowC "quantity" = RawVal.val "3" := by decide
  have hu : get_val cm2 rowC "unit_retail" = RawVal.val "-5" := by decide
  have ht : get_val cm2 rowC "total_retail" = RawVal.missing := by decide
  have hblank : (rowC.isEmpty || rowIsBlank rowC) = false := by decide
  have hpn : pyStrip (getStr cm2 rowC "product_name") = "ItemC" := by decide
  have hli : pyStrip (getStr cm2 rowC "listing_id") = "" := by decide
  have hlt : pyStrip (getStr cm2 rowC "listing_title") = "" := by decide
  have hct : pyStrip (getStr cm2 rowC "category") = "" := by decide
  have hupc : clean_upc (upcRawOf cm2 rowC) = "" := by decide
  have hasin : asinOf cm2 rowC = "" := by decide
  have hqv : quantityOf cm2 rowC = 3 := by
    rw [quantityOf, hq]
    simp [pf3, pyTrunc]
  have huv : unitRetailOf cm2 rowC = -5 := by
    rw [unitRetailOf, hu]
    simp [pfm5]
  have htv : totalRetailOf cm2 rowC = 0 := by
    rw [totalRetailOf, ht, huv, hqv]
    norm_num
  have hratio : cogsRatio metaW = 1/2 := by
    rw [cogsRatio]
    norm_num [metaW]
  rw [processRow, hblank]
  simp only [Bool.false_eq_true, if_false, hpn, hli, hlt, hct, hupc, hasin, hqv,
    huv, htv, hratio]
  norm_num [recC, metaW, dictGetD, dictLookup]
  decide

theorem evalRow7 : processRow "o7" meta0 (cogsRatio meta0) cm7 row7 = some rec7 := by
  have hq : get_val cm7 row7 "quantity" = RawVal.val "-5" := by decide
  have hu : get_val cm7 row7 "unit_retail" = RawVal.missing := by decide
  have ht : get_val cm7 row7 "total_retail" = RawVal.missing := by decide
  have hblank : (row7.isEmpty || rowIsBlank row7) = false := by decide
  have hpn : pyStrip (getStr cm7 row7 "product_name") = "Thing" := by decide
  have hli : pyStrip (getStr cm7 row7 "listing_id") = "" := by decide
  have hlt : pyStrip (getStr cm7 row7 "listing_title") = "" := by decide
  have hct : pyStrip (getStr cm7 row7 "category") = "" := by decide
  have hupc : clean_upc (upcRawOf cm7 row7) = "" := by decide
  have hasin : asinOf cm7 row7 = "" := by decide
  have hqv : quantityOf cm7 row7 = -5 := by
    rw [quantityOf, hq]
    simp only [pfm5, pyTrunc]
    norm_num
  have huv : unitRetailOf cm7 row7 = 0 := by
    rw [unitRetailOf, hu]
  have htv : totalRetailOf cm7 row7 = 0 := by
    rw [totalRetailOf, ht, huv, hqv]
    norm_num
  have hratio : cogsRatio meta0 = 0 := by
    rw [cogsRatio]
    norm_num [meta0]
  rw [processRow, hblank]
  simp only [Bool.false_eq_true, if_false, hpn, hli, hlt, hct, hupc, hasin, hqv,
    huv, htv, hratio]
  norm_num [rec7, meta0, dictGetD, dictLookup]
  decide

theorem parse7 : parse_manifest_xlsx wb7 "o7" meta0 = [rec7] := by
  have hidx : findHeaderIdx [hdr7, row7] = some 0 := by decide
  have hcm : buildColMap (([hdr7, row7].getD 0 []).map normCell) = cm7 := by decide
  simp only [parse_manifest_xlsx, wb7, List.foldl_cons, List.foldl_nil,
    List.nil_append]
  simp only [parseSheet, hidx, hcm]
  simp only [List.drop_succ_cons, List.drop_zero]
  simp only [List.filterMap_cons, List.filterMap_nil, evalRow7]

/-- C1 witness: with `total_cost = 30`, `total_msrp = 60` the emitted
record's allocation is `unit_retail * (30/60)`; with `total_msrp = 0` it
is `0`. -/
theorem allocated_cogs_ratio_witness :
    recW.allocated_cogs_per_unit =
        recW.unit_retail * (metaW.total_cost / metaW.total_msrp) ∧
    recW0.allocated_cogs_per_unit = 0 := by
  have hmem1 : recW ∈ parse_manifest_xlsx wbW "o1" metaW := by
    rw [parseW]
    simp
  have hmem0 : recW0 ∈ parse_manifest_xlsx wb0 "o0" meta0 := by
    rw [parse0]
    simp
  exact ⟨(allocated_cogs_ratio hmem1).1 (by norm_num [metaW]),
    (allocated_cogs_ratio hmem0).2 (by norm_num [meta0])⟩

/-- C5 witness: the emitted record's product name is neither blank nor the
header text; rows whose product-name cell is the header text or blank are
dropped. -/
theorem product_name_filter_witness :
    (recW.product_name ≠ "" ∧ pyLower recW.product_name ≠ "product name") ∧
    processRow "o1" metaW 0 cmW [some "  Product Name  ", some "1"] = none ∧
    processRow "o1" metaW 0 cmW [some "   ", some "1"] = none := by
  have hmem : recW ∈ parse_manifest_xlsx wbW "o1" metaW := by
    rw [parseW]
    simp
  refine ⟨(@product_name_filter wbW "o1" metaW).1 recW hmem, ?_, ?_⟩
  · exact (@product_name_filter wbW "o1" metaW).2 0 cmW _ (Or.inr (by decide))
  · exact (@product_name_filter wbW "o1" metaW).2 0 cmW _ (Or.inl (by decide))

/-- C10 witness: the UPC cell `"no-upc"` has no digits; the emitted `upc`
is the string itself, unchanged. -/
theorem upc_digitless_passthrough_witness :
    recX.upc = dotZeroStripped (upcRawOf cmW rowX) ∧ recX.upc = "no-upc" :=
  ⟨(upc_digitless_passthrough evalRowX).2.1 (by decide), rfl⟩

/-- C2 witness: an absent total-retail cell with `unit_retail = 10`,
`quantity = 3` yields `total_retail = 30`; an explicit `"0"` with
`unit_retail = 5`, `quantity = 2` yields `total_retail = 10`. -/
theorem total_retail_fallback_witness :
    recA.total_retail = recA.unit_retail * (recA.quantity : ℚ) ∧
    recA.total_retail = 30 ∧
    recB.total_retail = recB.unit_retail * (recB.quantity : ℚ) ∧
    recB.total_retail = 10 := by
  have hA := (total_retail_fallback evalRowA).2.1 (by decide) (by norm_num [recA])
  have hB := (total_retail_fallback evalRowB).2.2 "0" (by decide) pf0
    (by norm_num [recB])
  exact ⟨hA, rfl, hB, rfl⟩

/-- C2 counterexample: with the total-retail cell absent and
`unit_retail = -5`, `quantity = 3`, the emitted `total_retail` is the
parsed default `0`, not `unit_retail * quantity = -15`. -/
theorem total_retail_fallback_counterexample :
    processRow "o2" metaW (cogsRatio metaW) cm2 rowC = some recC ∧
    get_val cm2 rowC "total_retail" = RawVal.missing ∧
    recC.total_retail = 0 ∧
    recC.unit_retail * (recC.quantity : ℚ) = -15 ∧
    recC.total_retail ≠ recC.unit_retail * (recC.quantity : ℚ) := by
  refine ⟨evalRowC, by decide, rfl, by norm_num [recC], by norm_num [recC]⟩

/-- C7 witness: on a row whose cells parse to non-negative values, the
emitted `quantity`, `unit_retail` and `total_retail` are non-negative. -/
theorem record_bounds_witness :
    (0 : Int) ≤ recW.quantity ∧ (0 : ℚ) ≤ recW.unit_retail ∧
    (0 : ℚ) ≤ recW.total_retail := by
  have h := record_bounds evalRowW
  have hgq : get_val cmW rowW "quantity" = RawVal.val "2" := by decide
  have hgu : get_val cmW rowW "unit_retail" = RawVal.val "5" := by decide
  have hgt : get_val cmW rowW "total_retail" = RawVal.missing := by decide
  have hq : ∀ s x, get_val cmW rowW "quantity" = RawVal.val s →
      parseFloat? s = some x → 0 ≤ x := by
    intro s x hs hp
    rw [hgq] at hs
    injection hs with hs'
    subst hs'
    rw [pf2] at hp
    injection hp with hp'
    rw [← hp']
    norm_num
  have hu : ∀ s x, get_val cmW rowW "unit_retail" = RawVal.val s →
      parseFloat? s = some x → 0 ≤ x := by
    intro s x hs hp
    rw [hgu] at hs
    injection hs with hs'
    subst hs'
    rw [pf5] at hp
    injection hp with hp'
    rw [← hp']
    norm_num
  have htr : ∀ s x, get_val cmW rowW "total_retail" = RawVal.val s →
      parseFloat? s = some x → 0 ≤ x := by
    intro s x hs _
    rw [hgt] at hs
    cases hs
  have hqn := h.2.2.2.2.1 hq
  have hun := h.2.2.2.2.2.1 hu
  exact ⟨hqn, hun, h.2.2.2.2.2.2 hqn hun htr⟩

/-- C7 counterexample: a quantity cell `"-5"` yields an emitted record
with `quantity = -5 < 0`; the code performs no clamping. -/
theorem record_bounds_counterexample :
    rec7 ∈ parse_manifest_xlsx wb7 "o7" meta0 ∧ rec7.quantity < 0 := by
  constructor
  · rw [parse7]
    simp
  · norm_num [rec7]
